import Mathlib

/-!
# Verification of `py/imagefunc.py` (ComfyUI_LayerStyle)

Shallow embedding of the image-manipulation helpers of `py/imagefunc.py`,
together with proofs of the specification claims about them.

Modelling conventions:
* An image (`PIL.Image` in mode RGB) is a structure `Img` carrying its
  width, its height and a pixel function `ℤ → ℤ → RGB`; a pixel is a
  triple of natural channel samples (8-bit in well-formed images).
* Python loops that fill an image via `putpixel` are embedded as folds
  over the coordinate list `coords w h` (x outer, y inner, exactly as the
  source loops iterate).
* `numpy`/`skimage` float arithmetic inside the blend formulas is
  modelled over `ℚ`; the float32 tensor conversions of
  `pil2tensor`/`tensor2pil`, whose rounding the rotation claim depends
  on, are modelled bit-exactly by `rnd32` (IEEE-754 binary32
  round-to-nearest-even), computed on exact integer fractions `F` so
  that the kernel can evaluate all 256 byte cases.
* PIL library primitives that the repository merely invokes
  (`Image.resize`, `Image.rotate`) are abstracted as explicit functional
  parameters (`resizeO`, `rotateO`); PIL primitives with a documented
  closed per-pixel form (`ImageChops.*`, `Image.blend`, `Image.paste`,
  `Image.new`) are defined pointwise.
* Fallible operations (list indexing in `lut_apply`) return `Option`.
-/

/-! ## Pixel and image model -/

/-- A pixel: an RGB triple of (nominally 8-bit) channel samples. -/
abbrev RGB := ℕ × ℕ × ℕ

/-- An RGB image buffer: width, height and a pixel map.  Coordinates are
integers because the source code computes pixel addresses with signed
offsets before bounds checks. -/
@[ext]
structure Img where
  width : ℕ
  height : ℕ
  pix : ℤ → ℤ → RGB

/-- Models `Image.new` in mode RGB: a constant image of the given color. -/
def imageNew (w h : ℕ) (c : RGB) : Img :=
  ⟨w, h, fun _ _ => c⟩

/-- Models `img.putpixel((x, y), c)`: pointwise update at one coordinate. -/
def putpixel (img : Img) (p : ℕ × ℕ) (c : RGB) : Img :=
  ⟨img.width, img.height,
    fun a b => if a = (p.1 : ℤ) ∧ b = (p.2 : ℤ) then c else img.pix a b⟩

/-- Models `img.getpixel((x, y))` at a nonnegative coordinate pair. -/
def getpixel (img : Img) (p : ℕ × ℕ) : RGB :=
  img.pix (p.1 : ℤ) (p.2 : ℤ)

/-- The coordinate sequence of the nested source loops
`for x in range(width): for y in range(height):` (x outer, y inner). -/
def coords (w h : ℕ) : List (ℕ × ℕ) :=
  (List.range w).flatMap (fun x => (List.range h).map (fun y => (x, y)))

/-! ## Hex color conversion (`RGB_to_Hex`, `Hex_to_RGB`) -/

/-- Lowercase hexadecimal digit character for a value below 16
(what the Python builtin `hex` emits digit-wise). -/
def hexChar (n : ℕ) : Char :=
  if n < 10 then Char.ofNat (48 + n) else Char.ofNat (87 + n)

/-- Accumulator loop producing base-16 digits, least significant digit
peeled off first; the fuel argument (always sufficient below) makes the
recursion structural. -/
def hexDigitsAux : ℕ → ℕ → List Char → List Char
  | 0, _, acc => acc
  | fuel + 1, n, acc =>
      if n < 16 then hexChar n :: acc
      else hexDigitsAux fuel (n / 16) (hexChar (n % 16) :: acc)

/-- Digit string (most significant first) of `n` in base 16, lowercase,
with `0 ↦ "0"`: the digits part of the Python string `hex(n)` for `n ≥ 0`. -/
def hexDigits (n : ℕ) : List Char :=
  hexDigitsAux (n + 1) n []

/-- Models Python `str(hex(num))` for a nonnegative integer: the prefix
`0x` followed by the lowercase digits. -/
def pyHex (n : ℕ) : List Char :=
  [Char.ofNat 48, Char.ofNat 120] ++ hexDigits n

/-- Models the Python slice `s[-2:]`: the last two characters. -/
def lastTwo (l : List Char) : List Char :=
  l.drop (l.length - 2)

/-- Models the replacement of the letter x by the digit 0 on a string. -/
def replaceX (l : List Char) : List Char :=
  l.map (fun c => if c = Char.ofNat 120 then Char.ofNat 48 else c)

/-- Models `.upper()` on a string. -/
def upperStr (l : List Char) : List Char :=
  l.map Char.toUpper

/-- One component of `RGB_to_Hex`: `str(hex(num))[-2:].replace(x, 0).upper()` (quotes dropped). -/
def hexComponent (n : ℕ) : List Char :=
  upperStr (replaceX (lastTwo (pyHex n)))

/-- Models `RGB_to_Hex` from `imagefunc.py`: build the string `#RRGGBB`
by concatenating the per-component encodings after the `#`.  Strings are
embedded as `List Char`. -/
def RGB_to_Hex (c : RGB) : List Char :=
  [Char.ofNat 35] ++ hexComponent c.1 ++ hexComponent c.2.1 ++ hexComponent c.2.2

/-- Numeric value of one hexadecimal digit character, upper or lower case
(the digit values accepted by the Python call `int(s, 16)`; non-digit input,
which would raise in Python, is mapped to 0 and never arises below). -/
def hexVal (c : Char) : ℕ :=
  if 48 ≤ c.toNat ∧ c.toNat ≤ 57 then c.toNat - 48
  else if 97 ≤ c.toNat ∧ c.toNat ≤ 102 then c.toNat - 87
  else if 65 ≤ c.toNat ∧ c.toNat ≤ 70 then c.toNat - 55
  else 0

/-- Models Python `int(s, 16)` on a digit string. -/
def parseHexNat (l : List Char) : ℕ :=
  l.foldl (fun a c => 16 * a + hexVal c) 0

/-- Models `Hex_to_RGB` from `imagefunc.py`: slices `inhex[1:3]`,
`inhex[3:5]`, `inhex[5:]` parsed as base-16 integers. -/
def Hex_to_RGB (inhex : List Char) : RGB :=
  (parseHexNat ((inhex.drop 1).take 2),
   parseHexNat ((inhex.drop 3).take 2),
   parseHexNat (inhex.drop 5))

/-! ## Random partition (`random_numbers`)

The Python function first draws `total - 1` integers from the seeded
standard-library generator (`random.seed(seed)` followed by
`random.randint(-random_range//2, random_range//2)`), an external
library whose stream is a pure function of the seed.  The embedding
takes that drawn list as an explicit argument `draws`; determinism of
the original is the fact that `draws` — and hence the result — is a
function of the arguments. -/

/-- Models `random_numbers` from `imagefunc.py` given the list of
numbers drawn by the seeded generator: mean-center the draws by the
floored average (Python `//` is floor division, `Int.fdiv`), then append
one forcing entry so the total equals `sum_of_numbers`. -/
def random_numbers (draws : List ℤ) (total : ℕ) (sum_of_numbers : ℤ) : List ℤ :=
  let avg : ℤ := Int.fdiv draws.sum (total : ℤ)
  let ret_list : List ℤ := draws.map (fun i => i - avg)
  ret_list ++ [sum_of_numbers - ret_list.sum]

/-! ## Rounding helpers -/

/-- Round-half-to-even on rationals: the rounding used by the Python
builtin `round` and by `numpy.round`/`numpy.rint`. -/
def npRound (q : ℚ) : ℤ :=
  if q - ⌊q⌋ < 1 / 2 then ⌊q⌋
  else if 1 / 2 < q - ⌊q⌋ then ⌊q⌋ + 1
  else if ⌊q⌋ % 2 = 0 then ⌊q⌋ else ⌊q⌋ + 1

/-- Models `skimage.img_as_float` on one 8-bit channel sample: scale to
`[0, 1]`. -/
def toF (c : ℕ) : ℚ := (c : ℚ) / 255

/-- Models `skimage.img_as_ubyte` on one float channel: clip to
`[0, 1]`, scale by 255 and round to the nearest integer. -/
def toByteQ (x : ℚ) : ℕ :=
  (npRound (255 * (max 0 (min 1 x)))).toNat

/-- Models `numpy.sqrt` (used only by `blend_soft_light`, a branch no
claim evaluates): rational approximation of the floating-point square
root via the integer square root of the scaled numerator,
`√(n/d) = √(n·d)/d`. -/
def npSqrt (q : ℚ) : ℚ :=
  (Nat.sqrt (q.num.toNat * q.den) : ℚ) / (q.den : ℚ)

/-! ## Blend-mode per-channel formulas

The repository `blend_*` functions convert both PIL images to float
arrays (`cv22ski (pil2cv2 ·)`), apply an elementwise numpy formula with
0/1 mask arrays, and convert back (`cv22pil (ski2cv2 ·)`).  The
RGB↔BGR swaps of `pil2cv2`/`cv22pil` cancel because every formula acts
channelwise and identically on each channel, so the embedding works
per channel: `a` is the background sample, `b` the layer sample, both
in `[0, 1]`; boolean numpy masks become indicator rationals. -/

/-- Indicator rational of a decidable condition, modelling a numpy
boolean mask element (True = 1, False = 0). -/
def ind (p : Prop) [Decidable p] : ℚ := if p then 1 else 0

/-- Channel formula of `blend_color_burn`: `1 - (1-b)/(a+0.001)`,
masked clamp to `[0, 1]`. -/
def colorBurnF (a b : ℚ) : ℚ :=
  let img := 1 - (1 - b) / (a + 1 / 1000)
  let mask_1 := ind (img < 0)
  let mask_2 := ind (img > 1)
  let img := img * (1 - mask_1)
  img * (1 - mask_2) + mask_2

/-- Channel formula of `blend_color_dodge`: `b/(1-a+0.001)`, masked
clamp to `≤ 1`. -/
def colorDodgeF (a b : ℚ) : ℚ :=
  let img := b / (1 - a + 1 / 1000)
  let mask_2 := ind (img > 1)
  img * (1 - mask_2) + mask_2

/-- Channel formula of `blend_linear_burn`: `a+b-1`, masked clamp to `≥ 0`. -/
def linearBurnF (a b : ℚ) : ℚ :=
  let img := a + b - 1
  let mask_1 := ind (img < 0)
  img * (1 - mask_1)

/-- Channel formula of `blend_linear_dodge`: `a+b`, masked clamp to `≤ 1`. -/
def linearDodgeF (a b : ℚ) : ℚ :=
  let img := a + b
  let mask_2 := ind (img > 1)
  img * (1 - mask_2) + mask_2

/-- Channel formula of `blend_lighten`: select `a` where `a-b > 0`, else `b`. -/
def lightenF (a b : ℚ) : ℚ :=
  let mask := ind (a - b > 0)
  a * mask + b * (1 - mask)

/-- Channel formula of `blend_dark`: select `a` where `a-b < 0`, else `b`. -/
def darkF (a b : ℚ) : ℚ :=
  let mask := ind (a - b < 0)
  a * mask + b * (1 - mask)

/-- Channel formula of `blend_screen`: `1-(1-a)(1-b)`. -/
def screenF (a b : ℚ) : ℚ :=
  1 - (1 - a) * (1 - b)

/-- Channel formula of `blend_overlay`: piecewise on `b < 0.5`. -/
def overlayF (a b : ℚ) : ℚ :=
  let mask := ind (b < 1 / 2)
  2 * a * b * mask + (1 - mask) * (1 - 2 * (1 - a) * (1 - b))

/-- Channel formula of `blend_soft_light`: piecewise on `a < 0.5`, with
a square root in the upper branch. -/
def softLightF (a b : ℚ) : ℚ :=
  let mask := ind (a < 1 / 2)
  let T1 := (2 * a - 1) * (b - b * b) + b
  let T2 := (2 * a - 1) * (npSqrt b - b) + b
  T1 * mask + T2 * (1 - mask)

/-- Channel formula of `blend_hard_light`: piecewise on `a < 0.5`. -/
def hardLightF (a b : ℚ) : ℚ :=
  let mask := ind (a < 1 / 2)
  let T1 := 2 * a * b
  let T2 := 1 - 2 * (1 - a) * (1 - b)
  T1 * mask + T2 * (1 - mask)

/-- Channel formula of `blend_vivid_light`: piecewise burn/dodge on
`a < 0.5`, each sub-branch mask-clamped. -/
def vividLightF (a b : ℚ) : ℚ :=
  let mask := ind (a < 1 / 2)
  let T1 := 1 - (1 - b) / (2 * a + 1 / 1000)
  let T2 := b / (2 * (1 - a) + 1 / 1000)
  let mask_1 := ind (T1 < 0)
  let mask_2 := ind (T2 > 1)
  let T1 := T1 * (1 - mask_1)
  let T2 := T2 * (1 - mask_2) + mask_2
  T1 * mask + T2 * (1 - mask)

/-- Channel formula of `blend_pin_light`: three-way selection against
`2a-1` and `2a`. -/
def pinLightF (a b : ℚ) : ℚ :=
  let mask_1 := ind (b < a * 2 - 1)
  let mask_2 := ind (b > 2 * a)
  let T1 := 2 * a - 1
  let T2 := b
  let T3 := 2 * a
  T1 * mask_1 + T2 * (1 - mask_1) * (1 - mask_2) + T3 * mask_2

/-- Channel formula of `blend_linear_light`: `b + 2a - 1`, masked clamp
to `[0, 1]`. -/
def linearLightF (a b : ℚ) : ℚ :=
  let img := b + a * 2 - 1
  let mask_1 := ind (img < 0)
  let mask_2 := ind (img > 1)
  let img := img * (1 - mask_1)
  img * (1 - mask_2) + mask_2

/-- Channel formula of `blend_hard_mix`: threshold `a+b` against 1. -/
def hardMixF (a b : ℚ) : ℚ :=
  let img := a + b
  let mask := ind (a + b > 1)
  let img := img * (1 - mask) + mask
  img * mask

/-- Lift a float channel formula to pixels: convert the 8-bit samples
to `[0, 1]` floats, apply the formula, convert back to bytes. -/
def channelOp (f : ℚ → ℚ → ℚ) (p q : RGB) : RGB :=
  (toByteQ (f (toF p.1) (toF q.1)),
   toByteQ (f (toF p.2.1) (toF q.2.1)),
   toByteQ (f (toF p.2.2) (toF q.2.2)))

/-- Elementwise combination of two images (dimensions of the first). -/
def imgMap2 (f : RGB → RGB → RGB) (a b : Img) : Img :=
  ⟨a.width, a.height, fun x y => f (a.pix x y) (b.pix x y)⟩

/-- Lift a float channel formula to whole images, as the `blend_*`
functions do. -/
def blendLift (f : ℚ → ℚ → ℚ) (background_image layer_image : Img) : Img :=
  imgMap2 (channelOp f) background_image layer_image

/-- Models `blend_color_burn` from `imagefunc.py`. -/
def blend_color_burn : Img → Img → Img := blendLift colorBurnF

/-- Models `blend_color_dodge` from `imagefunc.py`. -/
def blend_color_dodge : Img → Img → Img := blendLift colorDodgeF

/-- Models `blend_linear_burn` from `imagefunc.py`. -/
def blend_linear_burn : Img → Img → Img := blendLift linearBurnF

/-- Models `blend_linear_dodge` from `imagefunc.py`. -/
def blend_linear_dodge : Img → Img → Img := blendLift linearDodgeF

/-- Models `blend_lighten` from `imagefunc.py`. -/
def blend_lighten : Img → Img → Img := blendLift lightenF

/-- Models `blend_dark` from `imagefunc.py`. -/
def blend_dark : Img → Img → Img := blendLift darkF

/-- Models `blend_screen` from `imagefunc.py`. -/
def blend_screen : Img → Img → Img := blendLift screenF

/-- Models `blend_overlay` from `imagefunc.py`. -/
def blend_overlay : Img → Img → Img := blendLift overlayF

/-- Models `blend_soft_light` from `imagefunc.py`. -/
def blend_soft_light : Img → Img → Img := blendLift softLightF

/-- Models `blend_hard_light` from `imagefunc.py`. -/
def blend_hard_light : Img → Img → Img := blendLift hardLightF

/-- Models `blend_vivid_light` from `imagefunc.py`. -/
def blend_vivid_light : Img → Img → Img := blendLift vividLightF

/-- Models `blend_pin_light` from `imagefunc.py`. -/
def blend_pin_light : Img → Img → Img := blendLift pinLightF

/-- Models `blend_linear_light` from `imagefunc.py`. -/
def blend_linear_light : Img → Img → Img := blendLift linearLightF

/-- Models `blend_hard_mix` from `imagefunc.py`. -/
def blend_hard_mix : Img → Img → Img := blendLift hardMixF

/-! ## PIL `ImageChops` primitives (pointwise per-channel forms) -/

/-- The exact PIL integer division-by-255 with rounding, the `MULDIV255`
macro: `t = a*b + 128; ((t >> 8) + t) >> 8`. -/
def muldiv255 (a b : ℕ) : ℕ :=
  ((a * b + 128) / 256 + (a * b + 128)) / 256

/-- Apply a channel operation to all three channels of two pixels. -/
def pixMap2 (f : ℕ → ℕ → ℕ) (p q : RGB) : RGB :=
  (f p.1 q.1, f p.2.1 q.2.1, f p.2.2 q.2.2)

/-- Models `ImageChops.multiply`: `image1 * image2 / MAX`. -/
def chopsMultiply : Img → Img → Img :=
  imgMap2 (pixMap2 muldiv255)

/-- Models `ImageChops.screen`: `MAX - ((MAX-image1) * (MAX-image2) / MAX)`. -/
def chopsScreen : Img → Img → Img :=
  imgMap2 (pixMap2 (fun a b => 255 - muldiv255 (255 - a) (255 - b)))

/-- Models `ImageChops.add` with `scale=1, offset=0`: clipped sum. -/
def chopsAdd : Img → Img → Img :=
  imgMap2 (pixMap2 (fun a b => min 255 (a + b)))

/-- Models `ImageChops.subtract` with `scale=1, offset=0`: clipped
difference (natural subtraction clips at 0). -/
def chopsSubtract : Img → Img → Img :=
  imgMap2 (pixMap2 (fun a b => a - b))

/-- Models `ImageChops.difference`: absolute difference. -/
def chopsDifference : Img → Img → Img :=
  imgMap2 (pixMap2 (fun a b => max a b - min a b))

/-- Models `ImageChops.darker`: channelwise minimum. -/
def chopsDarker : Img → Img → Img :=
  imgMap2 (pixMap2 min)

/-- Models `ImageChops.lighter`: channelwise maximum. -/
def chopsLighter : Img → Img → Img :=
  imgMap2 (pixMap2 max)

/-- Models `Image.blend(im1, im2, alpha)`: channelwise
`im1 + alpha*(im2 - im1)`, computed in float and truncated to a byte
by the C cast. -/
def imageBlend (im1 im2 : Img) (alpha : ℚ) : Img :=
  imgMap2 (pixMap2 (fun a b => (Int.floor ((a : ℚ) + alpha * ((b : ℚ) - (a : ℚ)))).toNat)) im1 im2

/-! ## `chop_image` -/

/-- The `chop_mode` constant of `imagefunc.py`: the nineteen recognized
blend-mode names, in source order. -/
def chop_mode : List String :=
  ["normal", "multply", "screen", "add", "subtract", "difference", "darker", "lighter",
   "color_burn", "color_dodge", "linear_burn", "linear_dodge", "overlay",
   "soft_light", "hard_light", "vivid_light", "pin_light", "linear_light", "hard_mix"]

/-- The blend-dispatch phase of `chop_image`: `ret_image` starts as the
background and each recognized mode name overwrites it with the
corresponding blend of the two original arguments (`copy.deepcopy` of a
buffer is the buffer itself under value semantics). -/
def chopBlendDispatch (background_image layer_image : Img) (blend_mode : String) : Img :=
  let ret_image := background_image
  let ret_image := if blend_mode = "normal" then layer_image else ret_image
  let ret_image := if blend_mode = "multply" then chopsMultiply background_image layer_image else ret_image
  let ret_image := if blend_mode = "screen" then chopsScreen background_image layer_image else ret_image
  let ret_image := if blend_mode = "add" then chopsAdd background_image layer_image else ret_image
  let ret_image := if blend_mode = "subtract" then chopsSubtract background_image layer_image else ret_image
  let ret_image := if blend_mode = "difference" then chopsDifference background_image layer_image else ret_image
  let ret_image := if blend_mode = "darker" then chopsDarker background_image layer_image else ret_image
  let ret_image := if blend_mode = "lighter" then chopsLighter background_image layer_image else ret_image
  let ret_image := if blend_mode = "color_burn" then blend_color_burn background_image layer_image else ret_image
  let ret_image := if blend_mode = "color_dodge" then blend_color_dodge background_image layer_image else ret_image
  let ret_image := if blend_mode = "linear_burn" then blend_linear_burn background_image layer_image else ret_image
  let ret_image := if blend_mode = "linear_dodge" then blend_linear_dodge background_image layer_image else ret_image
  let ret_image := if blend_mode = "overlay" then blend_overlay background_image layer_image else ret_image
  let ret_image := if blend_mode = "soft_light" then blend_soft_light background_image layer_image else ret_image
  let ret_image := if blend_mode = "hard_light" then blend_hard_light background_image layer_image else ret_image
  let ret_image := if blend_mode = "vivid_light" then blend_vivid_light background_image layer_image else ret_image
  let ret_image := if blend_mode = "pin_light" then blend_pin_light background_image layer_image else ret_image
  let ret_image := if blend_mode = "linear_light" then blend_linear_light background_image layer_image else ret_image
  let ret_image := if blend_mode = "hard_mix" then blend_hard_mix background_image layer_image else ret_image
  ret_image

/-- Models `chop_image` from `imagefunc.py`: the blend dispatch followed
by the opacity block (`opacity == 0` short-circuits to the background;
`opacity < 100` interpolates toward the background with
`alpha = 1 - opacity/100`; otherwise the blend is returned as is). -/
def chop_image (background_image layer_image : Img) (blend_mode : String) (opacity : ℤ) : Img :=
  let ret_image := chopBlendDispatch background_image layer_image blend_mode
  if opacity = 0 then background_image
  else if opacity < 100 then
    imageBlend ret_image background_image (1 - (opacity : ℚ) / 100)
  else ret_image

/-! ## `shift_image` -/

/-- One iteration of the `shift_image` pixel loop at destination
coordinate `p`.  In cyclic mode the source coordinate is wrapped by the
Python nonnegative remainder (`Int.emod`; the `abs` of the source is a
no-op on it); in clipped mode the pixel is written only when
`x > -distance_x and y > -distance_y` and
`x + distance_x < width and y + distance_y < height`. -/
def shiftStep (image : Img) (distance_x distance_y : ℤ) (cyclic : Bool)
    (ret_image : Img) (p : ℕ × ℕ) : Img :=
  let x : ℤ := p.1
  let y : ℤ := p.2
  if cyclic then
    let orig_x := x + distance_x
    let orig_x := if orig_x > (image.width : ℤ) - 1 ∨ orig_x < 0 then |orig_x % (image.width : ℤ)| else orig_x
    let orig_y := y + distance_y
    let orig_y := if orig_y > (image.height : ℤ) - 1 ∨ orig_y < 0 then |orig_y % (image.height : ℤ)| else orig_y
    putpixel ret_image p (image.pix orig_x orig_y)
  else
    if x > -distance_x ∧ y > -distance_y then
      if x + distance_x < (image.width : ℤ) ∧ y + distance_y < (image.height : ℤ) then
        putpixel ret_image p (image.pix (x + distance_x) (y + distance_y))
      else ret_image
    else ret_image

/-- Models `shift_image` from `imagefunc.py`: start from a buffer filled
with the background color (the parsed value of the `background_color`
hex string) and run the pixel loop over all destination coordinates. -/
def shift_image (image : Img) (distance_x distance_y : ℤ) (background_color : RGB)
    (cyclic : Bool) : Img :=
  (coords image.width image.height).foldl
    (shiftStep image distance_x distance_y cyclic)
    (imageNew image.width image.height background_color)

/-! ## IEEE-754 binary32 rounding and the tensor conversions

`pil2tensor` divides the 8-bit samples by 255 in float32;
`tensor2pil` multiplies by 255 in float32, clips to `[0, 255]` and
truncates to `uint8`.  Both operations round once, to nearest, ties to
even, on 24 significant bits; the magnitudes involved are far from the
subnormal and overflow ranges, so that rounding is modelled exactly by
rational arithmetic.  Because the claims about this pipeline are
settled by evaluating all 256 byte values inside the kernel, the
rationals here are represented as explicit numerator/denominator pairs
`F` (with positive denominator, kept unreduced), on which every
operation is plain integer arithmetic. -/

/-- An exact (unreduced) fraction `num / den`; every constructor below
keeps `den` positive. -/
structure F where
  num : ℤ
  den : ℤ
deriving DecidableEq

/-- The fraction of an integer. -/
def F.ofInt (n : ℤ) : F := ⟨n, 1⟩

/-- The rational value of a fraction (the semantics of `F`). -/
def F.val (q : F) : ℚ := (q.num : ℚ) / (q.den : ℚ)

/-- Fraction multiplication. -/
def F.mul (p q : F) : F := ⟨p.num * q.num, p.den * q.den⟩

/-- Fraction comparison (denominators positive: cross-multiply). -/
def F.lt (p q : F) : Bool := p.num * q.den < q.num * p.den

/-- Fraction comparison (denominators positive: cross-multiply). -/
def F.le (p q : F) : Bool := p.num * q.den ≤ q.num * p.den

/-- Floor of a fraction: floored integer division. -/
def F.floor (q : F) : ℤ := Int.fdiv q.num q.den

/-- Round-half-to-even on a fraction (`numpy.rint` semantics), as
`npRound` but in integer arithmetic: compare twice the fractional
remainder with the denominator. -/
def F.rnd (q : F) : ℤ :=
  let f := q.floor
  let r2 := 2 * (q.num - f * q.den)
  if r2 < q.den then f
  else if q.den < r2 then f + 1
  else if f % 2 = 0 then f else f + 1

/-- The power of two `2^k` as a fraction. -/
def pow2F (k : ℤ) : F :=
  if 0 ≤ k then ⟨2 ^ k.toNat, 1⟩ else ⟨1, 2 ^ (-k).toNat⟩

/-- Binary order of magnitude of a positive fraction: the integer `e`
with `2^e ≤ q < 2^(e+1)`, found by repeated doubling/halving.  The fuel
bounds the exponent search to `|e| ≤ fuel`, ample for every value the
image pipeline produces (all lie well inside `(2^-64, 2^64)`). -/
def floorLog2F : ℕ → F → ℤ
  | 0, _ => 0
  | fuel + 1, q =>
      if q.lt (F.ofInt 1) then floorLog2F fuel ⟨2 * q.num, q.den⟩ - 1
      else if (F.ofInt 2).le q then floorLog2F fuel ⟨q.num, 2 * q.den⟩ + 1
      else 0

/-- Round a positive fraction to 24 significant binary digits, nearest,
ties to even: the binary32 rounding in the normal range. -/
def rnd32pos (q : F) : F :=
  let e : ℤ := floorLog2F 64 q
  (F.ofInt (F.rnd (q.mul (pow2F (23 - e))))).mul (pow2F (e - 23))

/-- IEEE-754 binary32 rounding of a fraction (normal range). -/
def rnd32 (q : F) : F :=
  if q.num = 0 then F.ofInt 0
  else if 0 < q.num then rnd32pos q
  else ⟨-(rnd32pos ⟨-q.num, q.den⟩).num, (rnd32pos ⟨-q.num, q.den⟩).den⟩

/-- One channel of `pil2tensor`: `uint8 → float32 / 255`. -/
def chanToTensor (v : ℕ) : F :=
  rnd32 ⟨(v : ℤ), 255⟩

/-- One channel of `tensor2pil`: `clip(255.0 * t, 0, 255)` in float32,
then the truncating `astype(np.uint8)` cast. -/
def chanOfTensor (t : F) : ℕ :=
  let m := rnd32 ((F.ofInt 255).mul t)
  let c := if m.lt (F.ofInt 0) then F.ofInt 0 else if (F.ofInt 255).lt m then F.ofInt 255 else m
  c.floor.toNat

/-- A float image tensor: the `H × W × 3` content of the batch entry of
the `(1, H, W, 3)` tensor built by `pil2tensor` (for an RGB source,
`np.array` always yields `(H, W, 3)` and `unsqueeze(0)` adds the batch
axis, so the content determines the shape; the lossy `squeeze()` on the
way back is modelled inside `tensor2pil`). -/
structure TImg where
  width : ℕ
  height : ℕ
  tpix : ℤ → ℤ → F × F × F

/-- Models `pil2tensor` from `imagefunc.py`:
`torch.from_numpy(np.array(image).astype(np.float32) / 255.0)`. -/
def pil2tensor (image : Img) : TImg :=
  ⟨image.width, image.height, fun x y =>
    (chanToTensor (image.pix x y).1,
     chanToTensor (image.pix x y).2.1,
     chanToTensor (image.pix x y).2.2)⟩

/-- One channel of a tensor pixel, selected by index (channel 0 = R). -/
def chanSelect (p : F × F × F) (i : ℤ) : F :=
  if i = 0 then p.1 else if i = 1 then p.2.1 else p.2.2

/-- The embedding of one sample of a mode-L (single-channel) PIL image
into the RGB pixel model: the channel value repeated, as
`convert(RGB)` would render it.  Only the dimensions of such images
matter to the claims below. -/
def grey (v : ℕ) : RGB :=
  (v, v, v)

/-- Models `tensor2pil` from `imagefunc.py`:
`Image.fromarray(np.clip(255.0 * t, 0, 255).astype(np.uint8).squeeze())`
where the numpy `squeeze()` removes EVERY axis of length 1, not just the
batch axis.  On the `(1, H, W, 3)` tensor of an RGB image this gives:
* `H ≥ 2, W ≥ 2`: array `(H, W, 3)` — the expected RGB image, `W × H`;
* `H = 1, W ≥ 2`: array `(W, 3)` — `fromarray` reads a 2-D `uint8`
  array as a mode-L image of size `(3, W)` whose sample at `(x, y)` is
  channel `x` of the source column `y`;
* `W = 1, H ≥ 2`: array `(H, 3)` — likewise a mode-L image of size
  `(3, H)` sampling channel `x` of source row `y`;
* `H = W = 1`: array `(3,)` — `fromarray` reads a 1-D array as a
  mode-L image of size `(1, len)`, here `1 × 3`, the three channels of
  the single pixel stacked vertically.
The float clip and truncating cast (`chanOfTensor`) apply to the array
before `fromarray` in every case. -/
def tensor2pil (t_image : TImg) : Img :=
  if t_image.height = 1 ∧ t_image.width = 1 then
    ⟨1, 3, fun _ y => grey (chanOfTensor (chanSelect (t_image.tpix 0 0) y))⟩
  else if t_image.height = 1 then
    ⟨3, t_image.width, fun x y => grey (chanOfTensor (chanSelect (t_image.tpix y 0) x))⟩
  else if t_image.width = 1 then
    ⟨3, t_image.height, fun x y => grey (chanOfTensor (chanSelect (t_image.tpix 0 y) x))⟩
  else
    ⟨t_image.width, t_image.height, fun x y =>
      (chanOfTensor (t_image.tpix x y).1,
       chanOfTensor (t_image.tpix x y).2.1,
       chanOfTensor (t_image.tpix x y).2.2)⟩

/-! ## `__rotate_expand`

The non-trivial rotation path calls the PIL library primitives
`Image.resize` and `Image.rotate`; those externals are abstracted as
the functional parameters `resizeO img w h sampler` and
`rotateO img angle sampler` (the latter with `expand=True` and
transparent fill, as at the call sites). -/

/-- The `(resize_sampler, rotate_sampler)` pair selected from `method`
by `rotate_tensor` (defaults `LANCZOS`/`BICUBIC`). -/
def samplersOf (method : String) : String × String :=
  if method = "bicubic" then ("bicubic", "bicubic")
  else if method = "hamming" then ("hamming", "bilinear")
  else if method = "bilinear" then ("bilinear", "bilinear")
  else if method = "box" then ("box", "nearest")
  else if method = "nearest" then ("nearest", "nearest")
  else ("lanczos", "bicubic")

/-- Models the inner `rotate_tensor` of `__rotate_expand`: back to PIL,
optional supersampled resize, rotate with expansion, back to a tensor. -/
def rotate_tensor (resizeO : Img → ℕ → ℕ → String → Img) (rotateO : Img → ℚ → String → Img)
    (method : String) (SSAA : ℕ) (angle : ℚ) (width height : ℕ) (t : TImg) : TImg :=
  let samplers := samplersOf method
  let img := tensor2pil t
  if SSAA > 1 then
    let img_us_scaled := resizeO img (width * SSAA) (height * SSAA) samplers.1
    let img_rotated := rotateO img_us_scaled angle samplers.2
    let img_down_scaled := resizeO img_rotated (img_rotated.width / SSAA) (img_rotated.height / SSAA) samplers.1
    pil2tensor img_down_scaled
  else
    pil2tensor (rotateO img angle samplers.2)

/-- Models `__rotate_expand` from `imagefunc.py`: convert to a tensor;
an angle of exactly `0.0` or `360.0` short-circuits to
`tensor2pil images` before any rotation; otherwise rotate the single
batch entry and convert back. -/
def rotate_expand (resizeO : Img → ℕ → ℕ → String → Img) (rotateO : Img → ℚ → String → Img)
    (image : Img) (angle : ℚ) (SSAA : ℕ) (method : String) : Img :=
  let images := pil2tensor image
  if angle = 0 ∨ angle = 360 then tensor2pil images
  else tensor2pil (rotate_tensor resizeO rotateO method SSAA angle image.width image.height images)

/-! ## `gamma_trans` -/

/-- Models `gamma_trans` from `imagefunc.py`: the 256-entry table
`np.round(np.power(x/255.0, gamma) * 255.0).astype(np.uint8)` applied
to every channel by `cv2.LUT` (the RGB↔BGR swaps of the conversions
cancel because the same table is applied to every channel).  The gamma
exponent is modelled as an integer: the claim instantiates
`gamma = 1.0`, where IEEE floating-point `power` is exact, so the
rational table coincides with the floating-point one. -/
def gamma_trans (image : Img) (gamma : ℤ) : Img :=
  let gamma_table : ℕ → ℕ := fun x => ((npRound (((x : ℚ) / 255) ^ gamma * 255)) % 256).toNat
  ⟨image.width, image.height, fun a b =>
    (gamma_table (image.pix a b).1,
     gamma_table (image.pix a b).2.1,
     gamma_table (image.pix a b).2.2)⟩

/-! ## `lut_apply`

The file parsing (`open`, `readlines`, `has_letters`, `float`) is I/O
on the `.cube` resource; the embedding takes the parsed `lut_cube`
table — the list of already-scaled float triples — as an argument, and
models the per-pixel loop.  Python list indexing `lut_cube[index]` with
an index at or beyond the length raises `IndexError` (the index is a
sum of nonnegative terms, so the negative-index wraparound of Python
lists is unreachable); the embedding models it by `List.get?` and
propagates the failure as `none`. -/

/-- The quantized channel position `round(channel/255 * 32)` (Python
round-half-even; no exact ties exist since `gcd(64, 255) = 1`). -/
def lutPos (c : ℕ) : ℕ :=
  (npRound ((c : ℚ) / 255 * 32)).toNat

/-- The flat table index `R_pos + G_pos*33 + B_pos*33*33` of a pixel. -/
def lutIndex (p : RGB) : ℕ :=
  lutPos p.1 + lutPos p.2.1 * 33 + lutPos p.2.2 * 33 * 33

/-- One iteration of the `lut_apply` pixel loop: read the pixel, index
the table (failing on overflow), write the rounded looked-up triple. -/
def lutStep (lut_cube : List (ℚ × ℚ × ℚ)) (img : Img) (p : ℕ × ℕ) : Option Img :=
  let pixel := getpixel img p
  match lut_cube.get? (lutIndex pixel) with
  | none => none
  | some t =>
      some (putpixel img p ((npRound t.1).toNat, (npRound t.2.1).toNat, (npRound t.2.2).toNat))

/-- Models the pixel loop of `lut_apply` from `imagefunc.py` over the
parsed table: successive in-place `putpixel` updates (each pixel is
read before it is written, and only at its own coordinate), aborting
with `none` where Python raises `IndexError`. -/
def lut_apply (image : Img) (lut_cube : List (ℚ × ℚ × ℚ)) : Option Img :=
  (coords image.width image.height).foldlM (lutStep lut_cube) image

/-! ## `fit_resize_image` -/

/-- Models `Image.paste(fg, box=(ox, oy))` on `bg`: the foreground
occupies the box, everything else keeps the background. -/
def pasteAt (bg fg : Img) (ox oy : ℕ) : Img :=
  ⟨bg.width, bg.height, fun x y =>
    if (ox : ℤ) ≤ x ∧ x < (ox : ℤ) + (fg.width : ℤ) ∧ (oy : ℤ) ≤ y ∧ y < (oy : ℤ) + (fg.height : ℤ)
    then fg.pix (x - (ox : ℤ)) (y - (oy : ℤ))
    else bg.pix x y⟩

/-- Models `Image.crop((l, t, r, b))`: the `(r-l) × (b-t)` sub-image
with origin `(l, t)`. -/
def cropBox (img : Img) (l t r b : ℕ) : Img :=
  ⟨r - l, b - t, fun x y => img.pix (x + (l : ℤ)) (y + (t : ℤ))⟩

/-- Models `fit_resize_image` from `imagefunc.py`.  `resizeO` abstracts
the PIL `Image.resize` library call with its sampler; the float ratio
comparison and the `int(...)` truncations are modelled on exact
rationals (`int` truncates toward zero, i.e. `Int.floor` on these
nonnegative values). -/
def fit_resize_image (resizeO : Img → ℕ → ℕ → String → Img) (image : Img)
    (target_width target_height : ℕ) (fit : String) (resize_sampler : String) : Img :=
  let orig_width := image.width
  let orig_height := image.height
  if fit = "letterbox" then
    let wh :=
      if (orig_width : ℚ) / (orig_height : ℚ) > (target_width : ℚ) / (target_height : ℚ) then
        (target_width, (Int.floor ((target_width : ℚ) / (orig_width : ℚ) * (orig_height : ℚ))).toNat)
      else
        ((Int.floor ((target_height : ℚ) / (orig_height : ℚ) * (orig_width : ℚ))).toNat, target_height)
    let fit_image := resizeO image wh.1 wh.2 resize_sampler
    let ret_image := imageNew target_width target_height (0, 0, 0)
    pasteAt ret_image fit_image ((target_width - wh.1) / 2) ((target_height - wh.2) / 2)
  else if fit = "crop" then
    let fit_image :=
      if (orig_width : ℚ) / (orig_height : ℚ) > (target_width : ℚ) / (target_height : ℚ) then
        let fit_width := (Int.floor ((orig_height : ℚ) * (target_width : ℚ) / (target_height : ℚ))).toNat
        cropBox image ((orig_width - fit_width) / 2) 0 ((orig_width - fit_width) / 2 + fit_width) orig_height
      else
        let fit_height := (Int.floor ((orig_width : ℚ) * (target_height : ℚ) / (target_width : ℚ))).toNat
        cropBox image 0 ((orig_height - fit_height) / 2) orig_width ((orig_height - fit_height) / 2 + fit_height)
    resizeO fit_image target_width target_height resize_sampler
  else
    resizeO image target_width target_height resize_sampler

/-! ## Concrete test fixtures (used by witnesses and counterexamples) -/

/-- A 2×1 test image with pairwise distinct, non-black pixels. -/
def shiftTestImage : Img :=
  ⟨2, 1, fun x y => (x.toNat + 1, y.toNat + 2, 3)⟩

/-- A 1×1 black test image. -/
def lutTestImage : Img :=
  ⟨1, 1, fun _ _ => (0, 0, 0)⟩

/-- A 2×2 constant test image with in-range byte samples. -/
def byteTestImage : Img :=
  ⟨2, 2, fun _ _ => (7, 100, 255)⟩

/-- A 2×1 (one-pixel-high) constant byte-valued test image: a shape on
which the numpy `squeeze()` inside `tensor2pil` drops the height axis. -/
def rowTestImage : Img :=
  ⟨2, 1, fun _ _ => (10, 20, 30)⟩

/-- A 200×100 test image (for the letterbox claim). -/
def wideTestImage : Img :=
  ⟨200, 100, fun x y => (x.toNat % 256, y.toNat % 256, 9)⟩

/-- A trivial stand-in for the abstract `Image.resize` oracle: returns
an image of the requested dimensions over the pixel map of the argument. -/
def testResizeO : Img → ℕ → ℕ → String → Img :=
  fun i w h _ => ⟨w, h, i.pix⟩

/-- A trivial stand-in for the abstract `Image.rotate` oracle. -/
def testRotateO : Img → ℚ → String → Img :=
  fun i _ _ => i

/-! # Theorems -/

/-! ## Shared helper lemmas -/

set_option maxRecDepth 100000 in
/-- Core fact behind the rotation claim: the float32 byte round trip
`uint8 → /255 → ×255 → clip → truncate` is the identity, checked over
all 256 byte values by kernel computation. -/
theorem chan_roundtrip : ∀ v : ℕ, v < 256 → chanOfTensor (chanToTensor v) = v := by
  decide

theorem hexDigitsAux_length_le (fuel : ℕ) :
    ∀ (n : ℕ) (acc : List Char), acc.length ≤ (hexDigitsAux fuel n acc).length := by
  induction fuel with
  | zero => intro n acc; simp [hexDigitsAux]
  | succ fuel ih =>
      intro n acc
      simp only [hexDigitsAux]
      split
      · simp
      · exact le_trans (Nat.le_succ acc.length) (ih (n / 16) (hexChar (n % 16) :: acc))

theorem hexDigitsAux_length_succ (fuel n : ℕ) (acc : List Char) :
    acc.length + 1 ≤ (hexDigitsAux (fuel + 1) n acc).length := by
  simp only [hexDigitsAux]
  split
  · simp
  · exact le_trans (Nat.le_refl _) (hexDigitsAux_length_le fuel (n / 16) (hexChar (n % 16) :: acc))

theorem hexComponent_length (n : ℕ) : (hexComponent n).length = 2 := by
  have h1 : 1 ≤ (hexDigits n).length := hexDigitsAux_length_succ n n []
  simp only [hexComponent, upperStr, replaceX, lastTwo, pyHex, hexDigits, List.length_map,
    List.length_drop, List.length_append, List.length_cons, List.length_nil] at *
  omega

set_option maxRecDepth 100000 in
/-- The two-character hex encoding of each byte parses back to the byte. -/
theorem parseHex_hexComponent : ∀ n : ℕ, n < 256 → parseHexNat (hexComponent n) = n := by
  decide

theorem getpixel_putpixel_ne (img : Img) (p q : ℕ × ℕ) (c : RGB) (h : q ≠ p) :
    getpixel (putpixel img p c) q = getpixel img q := by
  simp only [getpixel, putpixel]
  rw [if_neg]
  intro hc
  exact h (Prod.ext (by exact_mod_cast hc.1) (by exact_mod_cast hc.2))

theorem coords_eq_product (w h : ℕ) : coords w h = (List.range w) ×ˢ (List.range h) := rfl

theorem mem_coords {w h : ℕ} {p : ℕ × ℕ} : p ∈ coords w h ↔ p.1 < w ∧ p.2 < h := by
  obtain ⟨x, y⟩ := p
  rw [coords_eq_product]
  simp [List.mem_product, List.mem_range]

theorem coords_nodup (w h : ℕ) : (coords w h).Nodup := by
  rw [coords_eq_product]
  exact List.Nodup.product (List.nodup_range w) (List.nodup_range h)

/-! ## Claim C6: hex round trip -/

/-- C6: for every RGB triple with components in `[0, 255]`,
`Hex_to_RGB (RGB_to_Hex c) = c` — the `#RRGGBB` encoding is zero-padded
for single-hex-digit components and parses back exactly. -/
theorem C6_hex_to_rgb_roundtrip (r g b : ℕ) (hr : r ≤ 255) (hg : g ≤ 255) (hb : b ≤ 255) :
    Hex_to_RGB (RGB_to_Hex (r, g, b)) = (r, g, b) := by
  obtain ⟨a1, a2, ha⟩ := List.length_eq_two.mp (hexComponent_length r)
  obtain ⟨b1, b2, hbl⟩ := List.length_eq_two.mp (hexComponent_length g)
  obtain ⟨c1, c2, hc⟩ := List.length_eq_two.mp (hexComponent_length b)
  have pr := parseHex_hexComponent r (by omega)
  have pg := parseHex_hexComponent g (by omega)
  have pb := parseHex_hexComponent b (by omega)
  rw [ha] at pr
  rw [hbl] at pg
  rw [hc] at pb
  simp [RGB_to_Hex, Hex_to_RGB, ha, hbl, hc, pr, pg, pb]

/-- Witness for C6 at the concrete triple `(5, 255, 16)` (the first
component exercising the zero-padding branch). -/
theorem C6_hex_to_rgb_roundtrip_witness :
    5 ≤ 255 ∧ 255 ≤ 255 ∧ 16 ≤ 255 ∧ Hex_to_RGB (RGB_to_Hex (5, 255, 16)) = (5, 255, 16) :=
  ⟨by decide, by decide, by decide,
   C6_hex_to_rgb_roundtrip 5 255 16 (by decide) (by decide) (by decide)⟩

/-! ## Claim C7: random partition -/

/-- C7: `random_numbers` invoked as in the claim
(`total=5, random_range=10, seed=0, sum_of_numbers=100`) returns a list
of exactly 5 entries summing exactly to 100, whatever values the seeded
generator drew (each draw of `randint(-5, 5)` lies in `[-5, 5]`); the
output is a function of the drawn list, which is itself a pure function
of the seed, so re-invocation with identical arguments is
deterministic. -/
theorem C7_random_numbers_length_sum (draws : List ℤ)
    (hlen : draws.length = 4) (hrange : ∀ i ∈ draws, -5 ≤ i ∧ i ≤ 5) :
    (random_numbers draws 5 100).length = 5 ∧ (random_numbers draws 5 100).sum = 100 := by
  constructor
  · simp [random_numbers, hlen]
  · simp [random_numbers]

/-- Witness for C7 at a concrete draw list. -/
theorem C7_random_numbers_length_sum_witness :
    ([3, -5, 0, 2] : List ℤ).length = 4 ∧ (∀ i ∈ ([3, -5, 0, 2] : List ℤ), -5 ≤ i ∧ i ≤ 5) ∧
    (random_numbers [3, -5, 0, 2] 5 100).length = 5 ∧
    (random_numbers [3, -5, 0, 2] 5 100).sum = 100 :=
  ⟨by decide, by decide,
   (C7_random_numbers_length_sum [3, -5, 0, 2] (by decide) (by decide)).1,
   (C7_random_numbers_length_sum [3, -5, 0, 2] (by decide) (by decide)).2⟩

/-! ## Claim C2: normal self-blend identity -/

/-- C2: blending any buffer with itself under the `normal` mode at
opacity 100 returns the buffer unchanged: the `normal` branch deep-copies
the layer (which is the background here) and opacity 100 skips both the
short circuit and the interpolation. -/
theorem C2_chop_normal_self_identity (image : Img) :
    chop_image image image "normal" 100 = image := rfl

/-! ## Claim C3: opacity endpoints -/

/-- C3: for every same-sized background/layer pair and every blend mode,
opacity 0 short-circuits `chop_image` to the unmodified background, and
opacity 100 returns the dispatched blend result with no interpolation
back toward the background. -/
theorem C3_chop_opacity_endpoints (background_image layer_image : Img) (blend_mode : String)
    (hw : layer_image.width = background_image.width)
    (hh : layer_image.height = background_image.height) :
    chop_image background_image layer_image blend_mode 0 = background_image ∧
    chop_image background_image layer_image blend_mode 100 =
      chopBlendDispatch background_image layer_image blend_mode := by
  constructor
  · simp [chop_image]
  · norm_num [chop_image]

/-- Witness for C3 at concrete same-sized images and the `overlay` mode. -/
theorem C3_chop_opacity_endpoints_witness :
    byteTestImage.width = byteTestImage.width ∧
    chop_image byteTestImage byteTestImage "overlay" 0 = byteTestImage ∧
    chop_image byteTestImage byteTestImage "overlay" 100 =
      chopBlendDispatch byteTestImage byteTestImage "overlay" :=
  ⟨rfl, (C3_chop_opacity_endpoints byteTestImage byteTestImage "overlay" rfl rfl).1,
    (C3_chop_opacity_endpoints byteTestImage byteTestImage "overlay" rfl rfl).2⟩

/-! ## Claim C10: unrecognized modes fall through -/

/-- C10: a `blend_mode` that is none of the nineteen names in
`chop_mode` leaves `ret_image` as the background through the whole
dispatch, so `chop_image` at opacity 100 returns the background
unchanged (no error is raised). -/
theorem C10_chop_unrecognized_mode (background_image layer_image : Img) (blend_mode : String)
    (h : blend_mode ∉ chop_mode) :
    chop_image background_image layer_image blend_mode 100 = background_image := by
  simp only [chop_mode, List.mem_cons, List.not_mem_nil, or_false, not_or] at h
  obtain ⟨h1, h2, h3, h4, h5, h6, h7, h8, h9, h10, h11, h12, h13, h14, h15, h16, h17, h18, h19⟩ := h
  norm_num [chop_image, chopBlendDispatch, h1, h2, h3, h4, h5, h6, h7, h8, h9, h10,
    h11, h12, h13, h14, h15, h16, h17, h18, h19]

/-- Witness for C10 at the unrecognized mode string `multiply` (the
correctly spelled name, which the dispatch does not recognize). -/
theorem C10_chop_unrecognized_mode_witness :
    "multiply" ∉ chop_mode ∧
    chop_image byteTestImage shiftTestImage "multiply" 100 = byteTestImage :=
  ⟨by decide, C10_chop_unrecognized_mode byteTestImage shiftTestImage "multiply" (by decide)⟩

/-! ## Claim C1: clipped shift -/

theorem foldl_shift_pix (image : Img) (dx dy : ℤ) (l : List (ℕ × ℕ)) (ret : Img) (a b : ℤ) :
    ((l.foldl (shiftStep image dx dy false) ret).pix a b) =
      if (∃ p ∈ l, ((p.1 : ℤ) = a ∧ (p.2 : ℤ) = b)) ∧
          ((a > -dx ∧ b > -dy) ∧ (a + dx < (image.width : ℤ) ∧ b + dy < (image.height : ℤ)))
      then image.pix (a + dx) (b + dy) else ret.pix a b := by
  induction l generalizing ret with
  | nil => simp
  | cons p rest ih =>
      rw [List.foldl_cons, ih]
      by_cases hm : ((p.1 : ℤ) = a ∧ (p.2 : ℤ) = b)
      · by_cases hc : ((a > -dx ∧ b > -dy) ∧ (a + dx < (image.width : ℤ) ∧ b + dy < (image.height : ℤ)))
        · have hwrite : (shiftStep image dx dy false ret p).pix a b = image.pix (a + dx) (b + dy) := by
            simp only [shiftStep, Bool.false_eq_true, if_false, hm.1, hm.2]
            rw [if_pos hc.1, if_pos hc.2]
            simp [putpixel, hm.1, hm.2]
          by_cases hr : (∃ q ∈ rest, ((q.1 : ℤ) = a ∧ (q.2 : ℤ) = b))
          · rw [if_pos ⟨hr, hc⟩, if_pos ⟨⟨p, List.mem_cons_self p rest, hm⟩, hc⟩]
          · rw [if_neg (fun hh => hr hh.1), if_pos ⟨⟨p, List.mem_cons_self p rest, hm⟩, hc⟩]
            exact hwrite
        · have hskip : (shiftStep image dx dy false ret p).pix a b = ret.pix a b := by
            simp only [shiftStep, Bool.false_eq_true, if_false, hm.1, hm.2]
            by_cases h1 : (a > -dx ∧ b > -dy)
            · rw [if_pos h1, if_neg (fun h2 => hc ⟨h1, h2⟩)]
            · rw [if_neg h1]
          rw [if_neg (fun hh => hc hh.2), if_neg (fun hh => hc hh.2)]
          exact hskip
      · have hskip : (shiftStep image dx dy false ret p).pix a b = ret.pix a b := by
          simp only [shiftStep, Bool.false_eq_true, if_false]
          split
          · split
            · simp only [putpixel]
              exact if_neg (fun hc => hm ⟨hc.1.symm, hc.2.symm⟩)
            · rfl
          · rfl
        have hcond : ((∃ q ∈ p :: rest, ((q.1 : ℤ) = a ∧ (q.2 : ℤ) = b)) ↔
            (∃ q ∈ rest, ((q.1 : ℤ) = a ∧ (q.2 : ℤ) = b))) := by
          constructor
          · rintro ⟨q, hq, hqe⟩
            rcases List.mem_cons.mp hq with rfl | hq2
            · exact absurd hqe hm
            · exact ⟨q, hq2, hqe⟩
          · rintro ⟨q, hq, hqe⟩
            exact ⟨q, List.mem_cons_of_mem p hq, hqe⟩
        by_cases hr : ((∃ q ∈ rest, ((q.1 : ℤ) = a ∧ (q.2 : ℤ) = b)) ∧
            ((a > -dx ∧ b > -dy) ∧ (a + dx < (image.width : ℤ) ∧ b + dy < (image.height : ℤ))))
        · rw [if_pos hr, if_pos ⟨hcond.mpr hr.1, hr.2⟩]
        · rw [if_neg hr, if_neg (fun hh => hr ⟨hcond.mp hh.1, hh.2⟩)]
          exact hskip

/-- C1 (amended): in `shift_image` with `cyclic=False`, the destination
pixel `(x, y)` receives the source pixel at `(x+distance_x, y+distance_y)`
exactly when `1 ≤ x+distance_x < width` and `1 ≤ y+distance_y < height`
(the guard `x > -distance_x and y > -distance_y` is strict, so source
column 0 and source row 0 are excluded), and is left as the
background-fill color otherwise. -/
theorem C1_shift_image_clipped (image : Img) (distance_x distance_y : ℤ)
    (background_color : RGB) (x y : ℤ)
    (hx0 : 0 ≤ x) (hx1 : x < (image.width : ℤ)) (hy0 : 0 ≤ y) (hy1 : y < (image.height : ℤ)) :
    (shift_image image distance_x distance_y background_color false).pix x y =
      if (x > -distance_x ∧ y > -distance_y) ∧
          (x + distance_x < (image.width : ℤ) ∧ y + distance_y < (image.height : ℤ))
      then image.pix (x + distance_x) (y + distance_y)
      else background_color := by
  unfold shift_image
  rw [foldl_shift_pix]
  have hex : (∃ p ∈ coords image.width image.height, ((p.1 : ℤ) = x ∧ (p.2 : ℤ) = y)) := by
    refine ⟨(x.toNat, y.toNat), mem_coords.mpr ⟨by omega, by omega⟩, by
      constructor <;> simp <;> omega⟩
  by_cases hc : ((x > -distance_x ∧ y > -distance_y) ∧
      (x + distance_x < (image.width : ℤ) ∧ y + distance_y < (image.height : ℤ)))
  · rw [if_pos ⟨hex, hc⟩, if_pos hc]
  · rw [if_neg (fun hh => hc hh.2), if_neg hc]
    rfl

/-- Counterexample to C1 as stated: on the 2×1 test image shifted by
`(distance_x, distance_y) = (-1, 0)`, the destination pixel `(1, 0)` has
its source coordinate `(0, 0)` inside the image bounds, yet it is left
as the background color (and the source pixel differs from the
background), because the guard in the code demands `x > -distance_x`
strictly. -/
theorem C1_shift_image_claim_counterexample :
    (0 ≤ (1 : ℤ) + (-1) ∧ (1 : ℤ) + (-1) < (shiftTestImage.width : ℤ) ∧
      0 ≤ (0 : ℤ) + 0 ∧ (0 : ℤ) + 0 < (shiftTestImage.height : ℤ)) ∧
    (shift_image shiftTestImage (-1) 0 (0, 0, 0) false).pix 1 0 = (0, 0, 0) ∧
    shiftTestImage.pix ((1 : ℤ) + (-1)) ((0 : ℤ) + 0) ≠ (0, 0, 0) := by
  refine ⟨by norm_num [shiftTestImage], ?_, by decide⟩
  decide

/-- Witness for the amended C1 theorem at a concrete in-range pixel. -/
theorem C1_shift_image_clipped_witness :
    (0 ≤ (0 : ℤ) ∧ (0 : ℤ) < (shiftTestImage.width : ℤ) ∧
      0 ≤ (0 : ℤ) ∧ (0 : ℤ) < (shiftTestImage.height : ℤ)) ∧
    (shift_image shiftTestImage 1 0 (0, 0, 0) false).pix 0 0 =
      (if ((0 : ℤ) > -1 ∧ (0 : ℤ) > -0) ∧
          ((0 : ℤ) + 1 < (shiftTestImage.width : ℤ) ∧ (0 : ℤ) + 0 < (shiftTestImage.height : ℤ))
        then shiftTestImage.pix ((0 : ℤ) + 1) ((0 : ℤ) + 0)
        else (0, 0, 0)) :=
  ⟨by norm_num [shiftTestImage],
   C1_shift_image_clipped shiftTestImage 1 0 (0, 0, 0) 0 0 (by norm_num)
     (by norm_num [shiftTestImage]) (by norm_num) (by norm_num [shiftTestImage])⟩

/-! ## Claim C5: LUT index overflow raises -/

theorem lut_foldlM_none (lut_cube : List (ℚ × ℚ × ℚ)) (img0 : Img) :
    ∀ (l : List (ℕ × ℕ)) (s : Img), l.Nodup →
      (∀ p ∈ l, getpixel s p = getpixel img0 p) →
      (∃ p ∈ l, lut_cube.length ≤ lutIndex (getpixel img0 p)) →
      List.foldlM (lutStep lut_cube) s l = none := by
  intro l
  induction l with
  | nil =>
      intro s _ _ hex
      simp at hex
  | cons p rest ih =>
      intro s hnd hag hex
      have hagp : getpixel s p = getpixel img0 p := hag p (List.mem_cons_self p rest)
      rw [List.foldlM_cons]
      rcases hgo : lut_cube.get? (lutIndex (getpixel s p)) with _ | t
      · have hstep : lutStep lut_cube s p = none := by
          simp only [lutStep, hgo]
        rw [hstep]
        rfl
      · have hlt : lutIndex (getpixel s p) < lut_cube.length := by
          by_contra hge
          rw [List.get?_eq_none.mpr (le_of_not_lt hge)] at hgo
          exact Option.noConfusion hgo
        have hstep : lutStep lut_cube s p =
            some (putpixel s p
              ((npRound t.1).toNat, (npRound t.2.1).toNat, (npRound t.2.2).toNat)) := by
          simp only [lutStep, hgo]
        rw [hstep]
        have hbind : ∀ (s2 : Img),
            (some s2 >>= fun s3 => List.foldlM (lutStep lut_cube) s3 rest) =
              List.foldlM (lutStep lut_cube) s2 rest := fun _ => rfl
        rw [hbind]
        rcases hex with ⟨q, hq, hbad⟩
        rcases List.mem_cons.mp hq with rfl | hq2
        · rw [hagp] at hlt
          omega
        · have hpnotin : p ∉ rest := (List.nodup_cons.mp hnd).1
          refine ih _ (List.Nodup.of_cons hnd) ?_ ⟨q, hq2, hbad⟩
          intro r hr
          have hrp : r ≠ p := by
            intro he
            subst he
            exact hpnotin hr
          rw [getpixel_putpixel_ne _ _ _ _ hrp]
          exact hag r (List.mem_cons_of_mem p hr)

/-- C5: in `lut_apply`, whenever the computed flat index of some pixel
`R_pos + G_pos*33 + B_pos*33*33` lies at or beyond the end of the parsed
LUT table, the function fails with an explicit indexing error (`none`,
modelling the Python `IndexError`) instead of silently reading another
entry; the index is a sum of nonnegative terms, so the Python silent
negative-index wraparound is unreachable. -/
theorem C5_lut_apply_index_error (image : Img) (lut_cube : List (ℚ × ℚ × ℚ)) (x y : ℕ)
    (hx : x < image.width) (hy : y < image.height)
    (hov : lut_cube.length ≤ lutIndex (getpixel image (x, y))) :
    lut_apply image lut_cube = none := by
  unfold lut_apply
  exact lut_foldlM_none lut_cube image (coords image.width image.height) image
    (coords_nodup _ _) (fun p _ => rfl) ⟨(x, y), mem_coords.mpr ⟨hx, hy⟩, hov⟩

/-- Witness for C5: the empty parsed table (a malformed `.cube` file
with no data lines) overflows at the very first pixel. -/
theorem C5_lut_apply_index_error_witness :
    0 < lutTestImage.width ∧ 0 < lutTestImage.height ∧
    ([] : List (ℚ × ℚ × ℚ)).length ≤ lutIndex (getpixel lutTestImage (0, 0)) ∧
    lut_apply lutTestImage [] = none :=
  ⟨by decide, by decide, Nat.zero_le _,
   C5_lut_apply_index_error lutTestImage [] 0 0 (by decide) (by decide) (Nat.zero_le _)⟩

/-! ## Claim C4: rotation by 0° / 360° and the tensor round trip -/

/-- Counterexample to C4 as stated: on the well-formed byte-valued 2×1
input `rowTestImage`, rotating by exactly `0.0` does NOT return an image
pixel-for-pixel equal to the input.  The angle test short-circuits to
`tensor2pil (pil2tensor image)`, but the numpy `squeeze()` inside
`tensor2pil` removes the unit height axis as well as the batch axis, so
the `(1, 1, 2, 3)` tensor collapses to a `(2, 3)` array and
`Image.fromarray` returns a 3×2 mode-L image — the output dimensions
are 3×2, not 2×1, hence the result differs from the input. -/
theorem C4_rotate_expand_claim_counterexample :
    ((0 : ℚ) = 0 ∨ (0 : ℚ) = 360) ∧
    (∀ x y : ℤ, (rowTestImage.pix x y).1 < 256 ∧ (rowTestImage.pix x y).2.1 < 256 ∧
      (rowTestImage.pix x y).2.2 < 256) ∧
    rowTestImage.width = 2 ∧ rowTestImage.height = 1 ∧
    (rotate_expand testResizeO testRotateO rowTestImage 0 0 "lanczos").width = 3 ∧
    (rotate_expand testResizeO testRotateO rowTestImage 0 0 "lanczos").height = 2 ∧
    rotate_expand testResizeO testRotateO rowTestImage 0 0 "lanczos" ≠ rowTestImage := by
  have hre : rotate_expand testResizeO testRotateO rowTestImage 0 0 "lanczos" =
      tensor2pil (pil2tensor rowTestImage) := by
    unfold rotate_expand
    rw [if_pos (Or.inl rfl)]
  have hw3 : (tensor2pil (pil2tensor rowTestImage)).width = 3 := rfl
  have hh3 : (tensor2pil (pil2tensor rowTestImage)).height = 2 := rfl
  refine ⟨Or.inl rfl,
    fun _ _ => ⟨by norm_num [rowTestImage], by norm_num [rowTestImage],
      by norm_num [rowTestImage]⟩,
    rfl, rfl, by rw [hre]; exact hw3, by rw [hre]; exact hh3, ?_⟩
  intro h
  have hww := congrArg Img.width h
  rw [hre, hw3] at hww
  simp [rowTestImage] at hww

/-- C4 (amended): for every byte-valued input image of width at least 2
and height at least 2, every SSAA value and every resampling method,
`__rotate_expand` at an angle of exactly `0.0` or exactly `360.0`
returns the input image pixel for pixel: the angle test short-circuits
before any resize or rotation, the `squeeze()` removes only the batch
axis at these dimensions, and the float32 image→tensor→image round trip
is lossless on 8-bit samples.  (For one-pixel-wide or one-pixel-high
inputs the identity fails, see the counterexample above.) -/
theorem C4_rotate_expand_identity (resizeO : Img → ℕ → ℕ → String → Img)
    (rotateO : Img → ℚ → String → Img) (image : Img) (angle : ℚ) (SSAA : ℕ) (method : String)
    (hang : angle = 0 ∨ angle = 360)
    (hw2 : 2 ≤ image.width) (hh2 : 2 ≤ image.height)
    (hbytes : ∀ x y : ℤ, (image.pix x y).1 < 256 ∧ (image.pix x y).2.1 < 256 ∧
      (image.pix x y).2.2 < 256) :
    rotate_expand resizeO rotateO image angle SSAA method = image := by
  unfold rotate_expand
  rw [if_pos hang]
  have hne1 : ¬((pil2tensor image).height = 1 ∧ (pil2tensor image).width = 1) := by
    simp only [pil2tensor]
    omega
  have hne2 : ¬((pil2tensor image).height = 1) := by
    simp only [pil2tensor]
    omega
  have hne3 : ¬((pil2tensor image).width = 1) := by
    simp only [pil2tensor]
    omega
  unfold tensor2pil
  rw [if_neg hne1, if_neg hne2, if_neg hne3]
  refine Img.ext rfl rfl ?_
  funext x y
  obtain ⟨h1, h2, h3⟩ := hbytes x y
  simp only [pil2tensor]
  rw [chan_roundtrip _ h1, chan_roundtrip _ h2, chan_roundtrip _ h3]

/-- Witness for the amended C4 at a concrete byte-valued 2×2 image,
angle 0, SSAA 2 and the `nearest` method. -/
theorem C4_rotate_expand_identity_witness :
    ((0 : ℚ) = 0 ∨ (0 : ℚ) = 360) ∧ 2 ≤ byteTestImage.width ∧ 2 ≤ byteTestImage.height ∧
    rotate_expand testResizeO testRotateO byteTestImage 0 2 "nearest" = byteTestImage :=
  ⟨Or.inl rfl, by norm_num [byteTestImage], by norm_num [byteTestImage],
   C4_rotate_expand_identity testResizeO testRotateO byteTestImage 0 2 "nearest" (Or.inl rfl)
     (by norm_num [byteTestImage]) (by norm_num [byteTestImage])
     (fun _ _ => ⟨by norm_num [byteTestImage], by norm_num [byteTestImage],
       by norm_num [byteTestImage]⟩)⟩

/-! ## Claim C9: gamma 1.0 is the identity -/

theorem npRound_intCast (n : ℤ) : npRound ((n : ℚ)) = n := by
  simp [npRound]

/-- C9: `gamma_trans` with gamma exactly 1 is the identity on every
byte-valued image: each table entry `round((x/255)^1 * 255)` collapses
to `x`, and `cv2.LUT` then maps every channel to itself. -/
theorem C9_gamma_trans_one_identity (image : Img)
    (hbytes : ∀ x y : ℤ, (image.pix x y).1 < 256 ∧ (image.pix x y).2.1 < 256 ∧
      (image.pix x y).2.2 < 256) :
    gamma_trans image 1 = image := by
  have key : ∀ v : ℕ, v < 256 → ((npRound (((v : ℚ) / 255) ^ (1 : ℤ) * 255)) % 256).toNat = v := by
    intro v hv
    have h255 : ((255 : ℚ)) ≠ 0 := by norm_num
    rw [zpow_one, div_mul_cancel₀ _ h255]
    have hcast : ((v : ℚ)) = (((v : ℤ) : ℚ)) := by norm_cast
    rw [hcast, npRound_intCast]
    omega
  unfold gamma_trans
  refine Img.ext rfl rfl ?_
  funext x y
  obtain ⟨h1, h2, h3⟩ := hbytes x y
  simp only []
  rw [key _ h1, key _ h2, key _ h3]

/-- Witness for C9 at a concrete byte-valued image. -/
theorem C9_gamma_trans_one_identity_witness :
    ((byteTestImage.pix 0 0).1 < 256 ∧ (byteTestImage.pix 0 0).2.1 < 256 ∧
      (byteTestImage.pix 0 0).2.2 < 256) ∧
    gamma_trans byteTestImage 1 = byteTestImage :=
  ⟨⟨by norm_num [byteTestImage], by norm_num [byteTestImage], by norm_num [byteTestImage]⟩,
   C9_gamma_trans_one_identity byteTestImage
     (fun _ _ => ⟨by norm_num [byteTestImage], by norm_num [byteTestImage],
       by norm_num [byteTestImage]⟩)⟩

/-! ## Claim C8: letterbox fit 200×100 → 100×100 -/

/-- C8: `fit_resize_image` on a 200×100 source with a 100×100 target and
`fit=letterbox` produces a 100×100 image in which the source, resized
to 100×50 by the resampling oracle, is pasted at vertical offset 25:
rows 0–24 and 75–99 are the black fill, and rows 25–74 show the resized
image shifted up by 25.  The resampling oracle is only assumed to return
an image of the requested dimensions. -/
theorem C8_fit_resize_letterbox_200x100 (resizeO : Img → ℕ → ℕ → String → Img)
    (image : Img) (resize_sampler : String)
    (hw : image.width = 200) (hh : image.height = 100)
    (hrw : ∀ i w h s, (resizeO i w h s).width = w)
    (hrh : ∀ i w h s, (resizeO i w h s).height = h) :
    (fit_resize_image resizeO image 100 100 "letterbox" resize_sampler).width = 100 ∧
    (fit_resize_image resizeO image 100 100 "letterbox" resize_sampler).height = 100 ∧
    (∀ x y : ℤ, 0 ≤ x → x < 100 → 0 ≤ y → y < 100 →
      ((y < 25 ∨ 75 ≤ y) →
        (fit_resize_image resizeO image 100 100 "letterbox" resize_sampler).pix x y = (0, 0, 0)) ∧
      (25 ≤ y → y < 75 →
        (fit_resize_image resizeO image 100 100 "letterbox" resize_sampler).pix x y =
          (resizeO image 100 50 resize_sampler).pix x (y - 25))) := by
  have hratio : ((image.width : ℚ)) / ((image.height : ℚ)) > ((100 : ℕ) : ℚ) / ((100 : ℕ) : ℚ) := by
    rw [hw, hh]
    norm_num
  have hfloor : (Int.floor (((100 : ℕ) : ℚ) / ((image.width : ℚ)) * ((image.height : ℚ)))).toNat
      = 50 := by
    rw [hw, hh]
    norm_num
    rfl
  have hfe : fit_resize_image resizeO image 100 100 "letterbox" resize_sampler =
      pasteAt (imageNew 100 100 (0, 0, 0)) (resizeO image 100 50 resize_sampler) 0 25 := by
    unfold fit_resize_image
    rw [if_pos rfl, if_pos hratio]
    simp only [hfloor]
  rw [hfe]
  refine ⟨rfl, rfl, ?_⟩
  intro x y hx0 hx1 hy0 hy1
  constructor
  · intro hbar
    unfold pasteAt
    simp only [imageNew]
    rw [if_neg]
    rw [hrw image 100 50 resize_sampler, hrh image 100 50 resize_sampler]
    push_cast
    omega
  · intro hy25 hy75
    unfold pasteAt
    simp only []
    rw [if_pos]
    · norm_num
    · rw [hrw image 100 50 resize_sampler, hrh image 100 50 resize_sampler]
      push_cast
      omega

/-- Witness for C8 at a concrete 200×100 image and a dimension-correct
resampling oracle, sampled at one black-bar pixel and one pasted pixel. -/
theorem C8_fit_resize_letterbox_200x100_witness :
    wideTestImage.width = 200 ∧ wideTestImage.height = 100 ∧
    (fit_resize_image testResizeO wideTestImage 100 100 "letterbox" "lanczos").width = 100 ∧
    (fit_resize_image testResizeO wideTestImage 100 100 "letterbox" "lanczos").height = 100 ∧
    (fit_resize_image testResizeO wideTestImage 100 100 "letterbox" "lanczos").pix 0 0 = (0, 0, 0) ∧
    (fit_resize_image testResizeO wideTestImage 100 100 "letterbox" "lanczos").pix 0 30 =
      (testResizeO wideTestImage 100 50 "lanczos").pix 0 (30 - 25) := by
  have h := C8_fit_resize_letterbox_200x100 testResizeO wideTestImage "lanczos" rfl rfl
    (fun _ _ _ _ => rfl) (fun _ _ _ _ => rfl)
  have h00 := (h.2.2 0 0 (by norm_num) (by norm_num) (by norm_num) (by norm_num)).1
    (Or.inl (by norm_num))
  have h030 := (h.2.2 0 30 (by norm_num) (by norm_num) (by norm_num) (by norm_num)).2
    (by norm_num) (by norm_num)
  exact ⟨rfl, rfl, h.1, h.2.1, h00, h030⟩
